import Mathlib

/-
Verification of the SubManager repository (DIMFLIX/SubManager).

Shallow embedding of the core data model and operations:
  - src/models.py          : PromotedUser, SubscriptionState, RateLimitInfo
  - src/config.py          : ConfigManager ban-list combination
  - src/github_client.py   : _make_request retry loop, get_followers pagination,
                             batch_follow / batch_unfollow, get_followers_batch
  - src/subscription_manager.py : _process_follows / _process_unfollows ordering
  - src/promotion.py       : find_users_to_promote discovery loop

Python datetimes are modelled as integer second timestamps; timedelta.days is
floor division by 86400 (Python floors toward negative infinity, hence Int.fdiv).
-/

namespace SubManager

/-! ## models.py -/

/-- Embedding of `PromotedUser` (src/models.py lines 56-65).
`promotion_date` is the timestamp in seconds. -/
structure PromotedUser where
  username : String
  promotion_date : Int
deriving DecidableEq, Repr

/-- Python `timedelta.days` of a delta of `secs` seconds: floor division by
86400 (Python's timedelta floors toward negative infinity). -/
def timedeltaDays (secs : Int) : Int := Int.fdiv secs 86400

/-- Embedding of `PromotedUser.is_expired` (src/models.py lines 62-65):
`delta = datetime.now() - self.promotion_date; return delta.days > days`,
with `now` passed explicitly. -/
def PromotedUser.expired (u : PromotedUser) (now : Int) (days : Int) : Bool :=
  decide (timedeltaDays (now - u.promotion_date) > days)

/-- Embedding of `SubscriptionState` (src/models.py lines 68-87). -/
structure SubscriptionState where
  followers : Finset String
  following : Finset String
  ban_list_followers : Finset String
  ban_list_following : Finset String
  promoted_users : List PromotedUser
deriving DecidableEq

/-- Embedding of `SubscriptionState.get_users_to_follow` (src/models.py line 80):
`self.followers - self.following - self.ban_list_followers`. -/
def SubscriptionState.get_users_to_follow (s : SubscriptionState) : Finset String :=
  (s.followers \ s.following) \ s.ban_list_followers

/-- The set comprehension `{u.username for u in self.promoted_users}`
(src/models.py line 85). -/
def SubscriptionState.active_promoted (s : SubscriptionState) : Finset String :=
  (s.promoted_users.map PromotedUser.username).toFinset

/-- Embedding of `SubscriptionState.get_users_to_unfollow` (src/models.py line 87):
`(self.following - self.followers - active_promoted) - self.ban_list_following`. -/
def SubscriptionState.get_users_to_unfollow (s : SubscriptionState) : Finset String :=
  ((s.following \ s.followers) \ s.active_promoted) \ s.ban_list_following

/-! ## config.py ban lists and subscription_manager.load_ban_lists -/

/-- The three configured ban lists held by `ConfigManager.ban_lists`
(src/config.py lines 28-32). -/
structure BanLists where
  never_follow : Finset String
  never_unfollow : Finset String
  ignore_completely : Finset String

/-- Embedding of `ConfigManager.get_combined_ban_list_followers`
(src/config.py lines 190-197): `never_follow | ignore_completely`. -/
def BanLists.get_combined_ban_list_followers (b : BanLists) : Finset String :=
  b.never_follow ∪ b.ignore_completely

/-- Embedding of `ConfigManager.get_combined_ban_list_following`
(src/config.py lines 199-206): `never_unfollow`. -/
def BanLists.get_combined_ban_list_following (b : BanLists) : Finset String :=
  b.never_unfollow

/-- Embedding of `SubscriptionManager.load_ban_lists`
(src/subscription_manager.py lines 48-61): copies the two combined ban lists
from the configuration manager into the state. -/
def load_ban_lists (b : BanLists) (s : SubscriptionState) : SubscriptionState :=
  { s with
    ban_list_followers := b.get_combined_ban_list_followers
    ban_list_following := b.get_combined_ban_list_following }

/-! ## Claims C3, C4, C7, C8 -/

/-- C3: the reconciliation state computes exactly
`toFollow = followers − following − excludeFollow` and
`toUnfollow = (following − followers − protected) − excludeUnfollow`,
stated as a membership characterization for arbitrary finite sets, where
`protected` is the set of usernames of the promoted-users list. -/
theorem users_to_follow_unfollow_exact (s : SubscriptionState) (u : String) :
    (u ∈ s.get_users_to_follow ↔
      u ∈ s.followers ∧ u ∉ s.following ∧ u ∉ s.ban_list_followers) ∧
    (u ∈ s.get_users_to_unfollow ↔
      u ∈ s.following ∧ u ∉ s.followers ∧
        (¬ ∃ p ∈ s.promoted_users, p.username = u) ∧ u ∉ s.ban_list_following) := by
  constructor
  · simp only [SubscriptionState.get_users_to_follow, Finset.mem_sdiff]
    tauto
  · simp only [SubscriptionState.get_users_to_unfollow, SubscriptionState.active_promoted,
      Finset.mem_sdiff, List.mem_toFinset, List.mem_map]
    constructor
    · rintro ⟨⟨⟨h1, h2⟩, h3⟩, h4⟩
      exact ⟨h1, h2, fun ⟨p, hp, he⟩ => h3 ⟨p, hp, he⟩, h4⟩
    · rintro ⟨h1, h2, h3, h4⟩
      exact ⟨⟨⟨h1, h2⟩, fun ⟨p, hp, he⟩ => h3 ⟨p, hp, he⟩⟩, h4⟩

/-- C4 counterexample: the state computation has no knowledge of the managed
account's own username, so for an account named "me" with input
`followers = {"me"}` (all other sets empty) the computed `toFollow` contains
the account's own username, refuting the claim as universally stated. -/
theorem own_username_in_to_follow_cex :
    "me" ∈ (SubscriptionState.mk {"me"} ∅ ∅ ∅ []).get_users_to_follow := by
  decide

/-- C4 amended: for every state, `toFollow ∩ toUnfollow = ∅`; and provided the
managed account's own username does not occur in the fetched `followers` and
`following` sets, neither computed set contains it. -/
theorem to_follow_to_unfollow_disjoint (me : String) (s : SubscriptionState)
    (h1 : me ∉ s.followers) (h2 : me ∉ s.following) :
    s.get_users_to_follow ∩ s.get_users_to_unfollow = ∅ ∧
    me ∉ s.get_users_to_follow ∧ me ∉ s.get_users_to_unfollow := by
  refine ⟨?_, ?_, ?_⟩
  · ext u
    simp [SubscriptionState.get_users_to_follow, SubscriptionState.get_users_to_unfollow,
      Finset.mem_sdiff]
    tauto
  · simp [SubscriptionState.get_users_to_follow, Finset.mem_sdiff]
    tauto
  · simp [SubscriptionState.get_users_to_unfollow, Finset.mem_sdiff]
    tauto

/-- Witness for the C4 amended theorem at a concrete state. -/
theorem to_follow_to_unfollow_disjoint_witness :
    "me" ∉ (SubscriptionState.mk {"a"} {"b"} ∅ ∅ []).followers ∧
    "me" ∉ (SubscriptionState.mk {"a"} {"b"} ∅ ∅ []).following ∧
    ((SubscriptionState.mk {"a"} {"b"} ∅ ∅ []).get_users_to_follow ∩
        (SubscriptionState.mk {"a"} {"b"} ∅ ∅ []).get_users_to_unfollow = ∅ ∧
      "me" ∉ (SubscriptionState.mk {"a"} {"b"} ∅ ∅ []).get_users_to_follow ∧
      "me" ∉ (SubscriptionState.mk {"a"} {"b"} ∅ ∅ []).get_users_to_unfollow) :=
  ⟨by decide, by decide,
    to_follow_to_unfollow_disjoint "me" (SubscriptionState.mk {"a"} {"b"} ∅ ∅ [])
      (by decide) (by decide)⟩

/-- C7: a promoted user acquired at `now − D` days is expired iff
`D > retentionDays`; in particular the boundary case `D = retentionDays`
is not expired. -/
theorem promoted_user_expiry_boundary (name : String) (now D days : Int) :
    (PromotedUser.mk name (now - D * 86400)).expired now days = true ↔ D > days := by
  unfold PromotedUser.expired timedeltaDays
  have h86400 : (86400 : Int) ≠ 0 := by decide
  have hd : (0 : Int) ≤ 86400 := by decide
  rw [show now - (now - D * 86400) = D * 86400 by ring, Int.fdiv_eq_ediv _ hd,
    Int.mul_ediv_cancel _ h86400]
  simp

/-- C8: the configuration provider folds `ignore_completely` into only the
follow-exclusion side: after `load_ban_lists`, the follow-exclusion set equals
`never_follow ∪ ignore_completely` (membership characterization) and the
unfollow-exclusion set equals `never_unfollow` exactly. -/
theorem ban_list_folding (b : BanLists) (s : SubscriptionState) (u : String) :
    (u ∈ (load_ban_lists b s).ban_list_followers ↔
      u ∈ b.never_follow ∨ u ∈ b.ignore_completely) ∧
    (load_ban_lists b s).ban_list_following = b.never_unfollow := by
  constructor
  · simp [load_ban_lists, BanLists.get_combined_ban_list_followers, Finset.mem_union]
  · rfl

/-! ## github_client.py : the _make_request retry loop

`GitHubClient._make_request` (src/github_client.py lines 49-112) runs
`for attempt in range(3)`, and each loop iteration issues one HTTP request.
We model the environment as the list of responses the server gives to the
successive requests of one `_make_request` call. -/

/-- One server response to a single HTTP request, as `_make_request` observes it:
a success carrying JSON payload `data`; an HTTP 429 where `info = some t` means
`self.rate_limit` is set with `seconds_until_reset = t` and `none` means no
rate-limit information is available; any other error status raised by
`raise_for_status` (`ClientResponseError`); or a connection-level failure
(`ClientError`). -/
inductive Resp (α : Type) where
  | ok (data : α)
  | rate429 (info : Option Nat)
  | serverErr (status : Nat)
  | connErr
deriving DecidableEq, Repr

/-- The outcome of one `_make_request` call: a returned JSON value, a raised
`ClientResponseError` with its status, a raised connection error, the implicit
`return None` reached when the `for` loop finishes all its attempts without
returning or raising, or `noResponse` marking an under-specified environment
(shorter than the number of requests issued; unreachable for real servers). -/
inductive ReqResult (α : Type) where
  | success (data : α)
  | raised (status : Nat)
  | raisedConn
  | fellOff
  | noResponse
deriving DecidableEq, Repr

/-- Embedding of the retry loop of `_make_request` (src/github_client.py lines
68-112). `attemptsLeft` is `max_retries - attempt` (so the Python condition
`attempt < max_retries - 1` is `1 < attemptsLeft`), `retryDelay` is the
current exponential-backoff delay, and the returned list is the trace of
`asyncio.sleep` durations. On a 429 with rate-limit information the code
sleeps `seconds_until_reset + 1` and executes `continue`, which moves the
`for` loop to the next value of `attempt`; on 502/503/504 with attempts left
it sleeps `retry_delay` and doubles it; on a connection error with attempts
left it sleeps `retry_delay` without doubling; a 429 without rate-limit
information falls through to `raise_for_status` and is re-raised because 429
is not in `[502, 503, 504]`. -/
def requestLoop {α : Type} : Nat → Nat → List (Resp α) → ReqResult α × List Nat
  | 0, _, _ => (.fellOff, [])
  | _ + 1, _, [] => (.noResponse, [])
  | n + 1, retryDelay, r :: rest =>
    match r with
    | .ok d => (.success d, [])
    | .rate429 (some t) =>
      let p := requestLoop n retryDelay rest
      (p.1, (t + 1) :: p.2)
    | .rate429 none => (.raised 429, [])
    | .serverErr s =>
      if (s = 502 ∨ s = 503 ∨ s = 504) ∧ 0 < n then
        let p := requestLoop n (retryDelay * 2) rest
        (p.1, retryDelay :: p.2)
      else (.raised s, [])
    | .connErr =>
      if 0 < n then
        let p := requestLoop n retryDelay rest
        (p.1, retryDelay :: p.2)
      else (.raisedConn, [])

/-- Embedding of `_make_request` over a response environment:
`max_retries = 3`, `retry_delay = 1` (src/github_client.py lines 69-70). -/
def make_request {α : Type} (responses : List (Resp α)) : ReqResult α × List Nat :=
  requestLoop 3 1 responses

/-- C1 counterexample: 429 responses DO consume retry attempts. With the
environment giving three 429 responses (rate-limit information available,
`seconds_until_reset = 5`) and then a success, `_make_request` falls off its
3-attempt loop and returns `None` without ever reaching the fourth response,
whereas the claim says the retry budget after any sequence of 429s equals the
budget before them, which would make this call behave like a fresh call on
the remaining environment and succeed. -/
theorem rate_limit_consumes_retry_cex :
    (make_request [Resp.rate429 (some 5), Resp.rate429 (some 5), Resp.rate429 (some 5),
        Resp.ok (["a"] : List String)]).1 = ReqResult.fellOff ∧
    (make_request [Resp.ok (["a"] : List String)]).1 = ReqResult.success ["a"] :=
  ⟨rfl, rfl⟩

/-- C1 amended: on a 429 response with rate-limit information
`seconds_until_reset = t`, the client sleeps `t + 1` seconds (i.e. until
`resetAt + 1`) and then retries — but the retry consumes one of the 3 total
attempts, the same ceiling used for 5xx/connection failures (after three
consecutive such 429 responses the call returns `None`). -/
theorem rate_limit_sleeps_and_consumes_attempt {α : Type} (t : Nat)
    (rest : List (Resp α)) (n retryDelay : Nat) (h : 0 < n) :
    requestLoop n retryDelay (Resp.rate429 (some t) :: rest) =
      ((requestLoop (n - 1) retryDelay rest).1,
        (t + 1) :: (requestLoop (n - 1) retryDelay rest).2) := by
  match n, h with
  | m + 1, _ => rfl

/-- Witness for the C1 amended theorem at a concrete input. -/
theorem rate_limit_sleeps_and_consumes_attempt_witness :
    0 < 3 ∧
    requestLoop 3 1 [Resp.rate429 (some 5), Resp.ok (["a"] : List String)] =
      ((requestLoop 2 1 [Resp.ok (["a"] : List String)]).1,
        6 :: (requestLoop 2 1 [Resp.ok (["a"] : List String)]).2) :=
  ⟨by decide,
    rate_limit_sleeps_and_consumes_attempt 5 [Resp.ok (["a"] : List String)] 3 1 (by decide)⟩

/-! ## github_client.py : get_followers pagination

`GitHubClient.get_followers` (src/github_client.py lines 114-156) loops over
pages starting at 1; `get_following` (lines 158-199) is textually identical
except for the endpoint. We model the environment as the list of
`_make_request` results for pages 1, 2, 3, ... -/

/-- The outcome of one `get_followers` call: the returned concatenated list,
a propagated exception from `_make_request` (the function has no try/except),
or `stuck`, marking an environment shorter than the number of pages the loop
requests (unreachable for real servers, which answer every request). -/
inductive FetchResult where
  | done (items : List String)
  | raised (status : Nat)
  | raisedConn
  | stuck
deriving DecidableEq, Repr

/-- The Python guard `if max_pages and page > max_pages: break`
(src/github_client.py line 134): `max_pages` is falsy when `None` or `0`. -/
def maxPagesCut : Option Nat → Nat → Bool
  | none, _ => false
  | some m, page => if m = 0 then false else decide (m < page)

/-- Embedding of the `while True` page loop of `get_followers`
(src/github_client.py lines 133-153). `results` is the sequence of
`_make_request` outcomes for the successive pages, `page` the next page
number. Returns the outcome together with the list of page numbers actually
requested. A `_make_request` result of `None` (`fellOff`) and an empty page
are both falsy for `if not data: break`; a page shorter than `PER_PAGE = 100`
ends the loop after its items are appended; a raised exception propagates,
discarding items collected so far. -/
def followersLoop : List (ReqResult (List String)) → Nat → Option Nat →
    FetchResult × List Nat
  | [], page, mp =>
    if maxPagesCut mp page then (.done [], []) else (.stuck, [])
  | r :: rest, page, mp =>
    if maxPagesCut mp page then (.done [], [])
    else
      match r with
      | .success d =>
        if d.isEmpty then (.done [], [page])
        else if d.length < 100 then (.done d, [page])
        else
          let p := followersLoop rest (page + 1) mp
          (match p.1 with
           | .done items => .done (d ++ items)
           | other => other, page :: p.2)
      | .fellOff => (.done [], [page])
      | .noResponse => (.stuck, [page])
      | .raised s => (.raised s, [page])
      | .raisedConn => (.raisedConn, [page])

/-- Embedding of `get_followers` over the per-page `_make_request` results:
the loop starts at `page = 1` (src/github_client.py line 131). -/
def get_followers (results : List (ReqResult (List String))) (mp : Option Nat) :
    FetchResult × List Nat :=
  followersLoop results 1 mp

/-- A stub server holding the page list `pages`: every requested page is a
successful `_make_request` returning that page's items, and any page past the
end of the list is a successful empty page (end of data). One sentinel empty
page suffices because the loop always stops on it. -/
def srv (pages : List (List String)) : List (ReqResult (List String)) :=
  pages.map ReqResult.success ++ [ReqResult.success []]

/-- If the `max_pages` guard fires, `max_pages` was a nonzero `some m` with
`m < page`. -/
lemma maxPagesCut_true {m page : Nat} (h : maxPagesCut (some m) page = true) :
    m ≠ 0 ∧ m < page := by
  by_cases hm : m = 0
  · simp [maxPagesCut, hm] at h
  · simp only [maxPagesCut, if_neg hm, decide_eq_true_eq] at h
    exact ⟨hm, h⟩

/-- If the `max_pages` guard does not fire on a nonzero `some m`, the current
page is still within the limit. -/
lemma maxPagesCut_false {m page : Nat} (h : maxPagesCut (some m) page = false)
    (hm : m ≠ 0) : page ≤ m := by
  simp [maxPagesCut, hm] at h
  omega

/-- Behaviour of the page loop against the stub server `srv`, generalized over
the starting page: the requested pages are consecutive from `page`; the result
is the concatenation, in page order, of the pages returned; every requested
page except possibly the last was a full page (the loop stops as soon as a
page is short); and a nonzero `max_pages = m` bounds the number of requests by
`m + 1 - page`. -/
lemma followersLoop_srv_spec (pages : List (List String)) (mp : Option Nat) :
    ∀ (page : Nat) (res : FetchResult) (reqs : List Nat),
    followersLoop (pages.map ReqResult.success ++ [ReqResult.success []]) page mp
        = (res, reqs) →
    reqs = List.range' page reqs.length ∧
    res = FetchResult.done ((pages.take reqs.length).flatten) ∧
    (∀ j, j + 1 < reqs.length → 100 ≤ (pages.getD j []).length) ∧
    (∀ m, mp = some m → m ≠ 0 → reqs.length ≤ m + 1 - page) := by
  induction pages with
  | nil =>
    intro page res reqs h
    simp only [List.map_nil, List.nil_append, followersLoop] at h
    by_cases hcut : maxPagesCut mp page = true
    · rw [if_pos hcut] at h
      cases h
      refine ⟨rfl, rfl, by intro j hj; simp only [List.length_nil, List.length_cons] at hj; omega, ?_⟩
      intro m hm hm0
      simp
    · rw [if_neg hcut, if_pos List.isEmpty_nil] at h
      cases h
      refine ⟨rfl, rfl, by intro j hj; simp only [List.length_nil, List.length_cons] at hj; omega, ?_⟩
      intro m hm hm0
      subst hm
      have := maxPagesCut_false (by simpa using hcut) hm0
      simp only [List.length_cons, List.length_nil]
      omega
  | cons d rest ih =>
    intro page res reqs h
    simp only [List.map_cons, List.cons_append, followersLoop, List.append_eq] at h
    by_cases hcut : maxPagesCut mp page = true
    · rw [if_pos hcut] at h
      cases h
      refine ⟨rfl, rfl, by intro j hj; simp only [List.length_nil, List.length_cons] at hj; omega, ?_⟩
      intro m hm hm0
      simp
    · rw [if_neg hcut] at h
      by_cases hemp : d.isEmpty
      · rw [if_pos hemp] at h
        cases h
        have hd : d = [] := List.isEmpty_iff.mp hemp
        refine ⟨by simp, by simp [hd], by intro j hj; simp only [List.length_nil, List.length_cons] at hj; omega, ?_⟩
        intro m hm hm0
        subst hm
        have := maxPagesCut_false (by simpa using hcut) hm0
        simp only [List.length_cons, List.length_nil]
        omega
      · rw [if_neg hemp] at h
        by_cases hlen : d.length < 100
        · rw [if_pos hlen] at h
          cases h
          refine ⟨by simp, by simp, by intro j hj; simp only [List.length_nil, List.length_cons] at hj; omega, ?_⟩
          intro m hm hm0
          subst hm
          have := maxPagesCut_false (by simpa using hcut) hm0
          simp only [List.length_cons, List.length_nil]
          omega
        · rw [if_neg hlen] at h
          obtain ⟨res', reqs', hrec⟩ :
              ∃ r q, followersLoop (rest.map ReqResult.success ++
                [ReqResult.success []]) (page + 1) mp = (r, q) :=
            ⟨_, _, rfl⟩
          obtain ⟨ha, hb, hc, hd2⟩ := ih (page + 1) res' reqs' hrec
          rw [hrec] at h
          subst hb
          cases h
          refine ⟨?_, ?_, ?_, ?_⟩
          · simp only [List.length_cons]
            rw [List.range'_succ]
            exact congrArg (page :: ·) ha
          · simp
          · intro j hj
            match j with
            | 0 =>
              simp only [List.getD_cons_zero]
              omega
            | k + 1 =>
              simp only [List.length_cons] at hj
              simpa using hc k (by omega)
          · intro m hm hm0
            subst hm
            have hpm := maxPagesCut_false (by simpa using hcut) hm0
            have := hd2 m rfl hm0
            simp only [List.length_cons]
            omega

/-- C5: against a stub server with page list `pages`, `get_followers` requests
pages strictly in increasing order starting at page 1; every requested page
except possibly the last was full (`≥ 100` items), i.e. the loop terminates as
soon as a page returns fewer than `PER_PAGE = 100` items; the result is the
concatenation of the returned pages in page order; and a supplied (truthy)
`max_pages = m` bounds the number of requested pages by `m`. -/
theorem get_followers_pagination (pages : List (List String)) (mp : Option Nat) :
    (get_followers (srv pages) mp).2 =
      List.range' 1 (get_followers (srv pages) mp).2.length ∧
    (get_followers (srv pages) mp).1 =
      FetchResult.done ((pages.take (get_followers (srv pages) mp).2.length).flatten) ∧
    (∀ j, j + 1 < (get_followers (srv pages) mp).2.length →
      100 ≤ (pages.getD j []).length) ∧
    (∀ m, mp = some m → m ≠ 0 → (get_followers (srv pages) mp).2.length ≤ m) := by
  obtain ⟨ha, hb, hc, hd⟩ :=
    followersLoop_srv_spec pages mp 1 (get_followers (srv pages) mp).1
      (get_followers (srv pages) mp).2 rfl
  exact ⟨ha, hb, hc, fun m hm hm0 => by simpa using hd m hm hm0⟩

/-- Witness for C5 at a concrete stub server (one full page of 100 items then
a short page) with `max_pages = 2`: at most 2 pages are requested. -/
theorem get_followers_pagination_witness :
    (get_followers (srv [List.replicate 100 "a", ["b"], ["c"]]) (some 2)).2.length ≤ 2 :=
  (get_followers_pagination [List.replicate 100 "a", ["b"], ["c"]] (some 2)).2.2.2
    2 rfl (by decide)

/-- Behaviour of the page loop when every page in `pages` is full and the next
`_make_request` falls off its retry loop and returns `None`: the loop treats
the `None` as end of data and returns the pages collected so far as a normal
result. -/
lemma followersLoop_fellOff (pages : List (List String)) :
    ∀ page : Nat, (∀ p ∈ pages, 100 ≤ p.length) →
    followersLoop (pages.map ReqResult.success ++ [ReqResult.fellOff]) page none =
      (FetchResult.done pages.flatten, List.range' page (pages.length + 1)) := by
  induction pages with
  | nil =>
    intro page _
    simp [followersLoop, maxPagesCut]
  | cons d rest ih =>
    intro page h
    have hd : 100 ≤ d.length := h d (by simp)
    have hrest : ∀ p ∈ rest, 100 ≤ p.length := fun p hp => h p (by simp [hp])
    simp only [List.map_cons, List.cons_append, followersLoop, List.append_eq]
    rw [if_neg (by simp [maxPagesCut]),
      if_neg (by simp only [List.isEmpty_iff_length_eq_zero]; omega),
      if_neg (by omega), ih (page + 1) hrest]
    simp [List.range'_succ]

/-- C10: if all three retry attempts of `_make_request` get a 429 response
with rate-limit information available, the call falls off its retry loop and
returns `None` (never reaching any later response); and the `get_followers`
page loop treats that `None` as end of data, so a run whose pages are all full
until a persistently rate-limited request returns the partial data collected
so far as a normal, complete-looking result. -/
theorem rate_limited_fetch_partial (t1 t2 t3 : Nat)
    (extra : List (Resp (List String))) (fullPages : List (List String))
    (h : ∀ p ∈ fullPages, 100 ≤ p.length) :
    (make_request (Resp.rate429 (some t1) :: Resp.rate429 (some t2) ::
        Resp.rate429 (some t3) :: extra)).1 = ReqResult.fellOff ∧
    get_followers (fullPages.map ReqResult.success ++ [ReqResult.fellOff]) none =
      (FetchResult.done fullPages.flatten, List.range' 1 (fullPages.length + 1)) :=
  ⟨rfl, followersLoop_fellOff fullPages 1 h⟩

/-- Witness for C10 at a concrete input: one full page, then a persistently
rate-limited request; `get_followers` reports the single page as the result. -/
theorem rate_limited_fetch_partial_witness :
    (∀ p ∈ [List.replicate 100 "a"], 100 ≤ p.length) ∧
    ((make_request (Resp.rate429 (some 5) :: Resp.rate429 (some 5) ::
        Resp.rate429 (some 5) :: ([] : List (Resp (List String))))).1 = ReqResult.fellOff ∧
      get_followers ([List.replicate 100 "a"].map ReqResult.success ++
          [ReqResult.fellOff]) none =
        (FetchResult.done ([List.replicate 100 "a"] : List (List String)).flatten,
          List.range' 1 2)) :=
  ⟨by decide,
    by
      have := rate_limited_fetch_partial 5 5 5 [] [List.replicate 100 "a"] (by decide)
      simpa using this⟩

/-! ## github_client.py : batch_follow / batch_unfollow

`batch_follow` (src/github_client.py lines 255-283) creates one
`follow_user` task per username, gathers them with
`return_exceptions=True`, and builds a dict mapping each username to `False`
when its gathered item is an exception and to the task's boolean result
otherwise. `follow_user` (lines 201-217) returns `True` when `_make_request`
returns and `False` when it raises (all exceptions caught inside);
`batch_unfollow`/`unfollow_user` (lines 219-235, 285-313) are identical
modulo the HTTP verb. Outcomes are modelled per subject. -/

/-- Per-subject outcome of one mutation task: `_make_request` returns
normally; `_make_request` raises (caught inside `follow_user`/`unfollow_user`,
which then returns `False`); or the gathered awaitable itself surfaces an
exception (e.g. cancellation), which `return_exceptions=True` hands back as an
exception object. -/
inductive TaskOutcome where
  | ok
  | appErr
  | taskExn
deriving DecidableEq, Repr

/-- One gathered item: a boolean returned by the task, or an exception object
(with `return_exceptions=True`). -/
inductive GatherItem where
  | val (b : Bool)
  | exn
deriving DecidableEq, Repr

/-- Embedding of `follow_user` (src/github_client.py lines 201-217) run as a
gathered task: returns `True` on success and `False` when `_make_request`
raises; a task-level exception is passed through by `gather`. -/
def runFollowTask : TaskOutcome → GatherItem
  | .ok => .val true
  | .appErr => .val false
  | .taskExn => .exn

/-- Embedding of `unfollow_user` (src/github_client.py lines 219-235) run as a
gathered task; same result structure as `runFollowTask`. -/
def runUnfollowTask : TaskOutcome → GatherItem
  | .ok => .val true
  | .appErr => .val false
  | .taskExn => .exn

/-- A Python dict from usernames to booleans, as a lookup function; `insert`
overwrites the previous binding of the key. -/
def dictInsert (d : String → Option Bool) (k : String) (v : Bool) :
    String → Option Bool :=
  fun u => if u = k then some v else d u

/-- The result-aggregation loop shared by `batch_follow` and `batch_unfollow`
(src/github_client.py lines 276-281 and 306-311): zip the usernames with the
gathered responses; an exception maps to `False`, any other response is the
task's boolean. -/
def aggregateResults (pairs : List (String × GatherItem)) : String → Option Bool :=
  pairs.foldl
    (fun d p =>
      dictInsert d p.1 (match p.2 with | .val b => b | .exn => false))
    (fun _ => none)

/-- Embedding of `batch_follow` (src/github_client.py lines 255-283) over the
per-subject outcome assignment `outcome`. -/
def batch_follow (usernames : List String) (outcome : String → TaskOutcome) :
    String → Option Bool :=
  aggregateResults (usernames.zip (usernames.map (fun u => runFollowTask (outcome u))))

/-- Embedding of `batch_unfollow` (src/github_client.py lines 285-313) over
the per-subject outcome assignment `outcome`. -/
def batch_unfollow (usernames : List String) (outcome : String → TaskOutcome) :
    String → Option Bool :=
  aggregateResults (usernames.zip (usernames.map (fun u => runUnfollowTask (outcome u))))

/-- The value a subject's own outcome maps to: `true` only for a plain
success; an application failure or a task exception maps to `false`. -/
def outcomeBool : TaskOutcome → Bool
  | .ok => true
  | .appErr => false
  | .taskExn => false

/-- Folding key-dependent inserts over a list: the final dict maps `u` to its
value iff `u` occurs in the list, and leaves other keys at the accumulator. -/
lemma foldl_dictInsert (f : String → Bool) :
    ∀ (l : List String) (d : String → Option Bool) (u : String),
    (l.foldl (fun d k => dictInsert d k (f k)) d) u =
      if u ∈ l then some (f u) else d u := by
  intro l
  induction l with
  | nil => intro d u; simp
  | cons k t ih =>
    intro d u
    simp only [List.foldl_cons, ih, List.mem_cons]
    by_cases hu : u ∈ t
    · simp [hu]
    · by_cases hk : u = k
      · simp [hu, hk, dictInsert]
      · simp [hu, hk, dictInsert]

/-- C6: for every list of batch subjects and every per-subject outcome
assignment, the batch follow and unfollow operations each return a mapping
whose domain is exactly the input subjects, where each subject with a failing
call (application failure or task exception) maps to `false` and every other
subject maps to its own outcome — one subject's failure never aborts or
alters the others. -/
theorem batch_mutation_isolation (usernames : List String)
    (outcome : String → TaskOutcome) (u : String) :
    batch_follow usernames outcome u =
      (if u ∈ usernames then some (outcomeBool (outcome u)) else none) ∧
    batch_unfollow usernames outcome u =
      (if u ∈ usernames then some (outcomeBool (outcome u)) else none) := by
  have hzip : ∀ (g : TaskOutcome → GatherItem) (l : List String),
      l.zip (l.map (fun v => g (outcome v))) = l.map (fun v => (v, g (outcome v))) := by
    intro g l
    induction l with
    | nil => rfl
    | cons a t ih => simp [ih]
  have hagg : ∀ (g : TaskOutcome → GatherItem) (l : List String),
      aggregateResults (l.map (fun v => (v, g (outcome v)))) u =
        if u ∈ l then
          some (match g (outcome u) with | .val b => b | .exn => false)
        else none := by
    intro g l
    have := foldl_dictInsert
      (fun v => match g (outcome v) with | .val b => b | .exn => false) l
      (fun _ => none) u
    simpa [aggregateResults, List.foldl_map] using this
  constructor
  · rw [batch_follow, hzip runFollowTask, hagg runFollowTask]
    cases h : outcome u <;> simp [runFollowTask, outcomeBool, h]
  · rw [batch_unfollow, hzip runUnfollowTask, hagg runUnfollowTask]
    cases h : outcome u <;> simp [runUnfollowTask, outcomeBool, h]

/-! ## subscription_manager.py : mutation call ordering

`_process_follows` (src/subscription_manager.py lines 111-151) sorts the user
list (`users = sorted(users)`), slices it into batches of `batch_size = 5`
(`users[i:i + batch_size]` for `i in range(0, len(users), batch_size)`), and
passes each batch to `batch_follow`, which issues one `follow_user` call per
username in batch order; so the stream of individual mutation calls is the
concatenation of the batches. `_process_unfollows` (lines 153-193) is
identical with `batch_unfollow`/`unfollow_user`. Python's `sorted` on
strings is lexicographic by code point, which is exactly the `LinearOrder`
on `String`. -/

/-- The Python batch slicing `[l[i:i+n] for i in range(0, len(l), n)]`,
with the list length as recursion fuel. -/
def pychunksAux (n : Nat) : Nat → List α → List (List α)
  | 0, _ => []
  | _, [] => []
  | fuel + 1, l => l.take n :: pychunksAux n fuel (l.drop n)

/-- Batch slicing of a list into consecutive chunks of size `n`. -/
def pychunks (n : Nat) (l : List α) : List (List α) :=
  pychunksAux n l.length l

/-- For positive chunk size, concatenating the chunks gives back the list. -/
lemma pychunksAux_flatten {n : Nat} (hn : 0 < n) :
    ∀ (fuel : Nat) (l : List α), l.length ≤ fuel →
      (pychunksAux n fuel l).flatten = l := by
  intro fuel
  induction fuel with
  | zero =>
    intro l hl
    have hnil : l = [] := List.length_eq_zero.mp (Nat.le_zero.mp hl)
    subst hnil
    rfl
  | succ f ih =>
    intro l hl
    cases l with
    | nil => rfl
    | cons a t =>
      have hstep : pychunksAux n (f + 1) (a :: t) =
          (a :: t).take n :: pychunksAux n f ((a :: t).drop n) := rfl
      rw [hstep]
      simp only [List.flatten_cons]
      simp only [List.length_cons] at hl
      rw [ih ((a :: t).drop n)
        (by simp only [List.length_drop, List.length_cons]; omega),
        List.take_append_drop]

/-- The stream of individual `follow_user` calls issued by
`_process_follows` (src/subscription_manager.py lines 111-151): empty-input
early return, then the sorted list in batches of 5, concatenated. -/
def process_follows_calls (users : List String) : List String :=
  if users.isEmpty then [] else (pychunks 5 users.mergeSort).flatten

/-- The stream of individual `unfollow_user` calls issued by
`_process_unfollows` (src/subscription_manager.py lines 153-193); the
control flow is identical to `_process_follows`. -/
def process_unfollows_calls (users : List String) : List String :=
  if users.isEmpty then [] else (pychunks 5 users.mergeSort).flatten

/-- The call stream is the sorted input list. -/
lemma process_follows_calls_eq_sort (l : List String) :
    process_follows_calls l = l.mergeSort := by
  rw [process_follows_calls]
  by_cases hl : l.isEmpty
  · rw [if_pos hl, List.isEmpty_iff.mp hl]
    simp
  · rw [if_neg hl]
    exact pychunksAux_flatten (by decide) _ _ (by simp [(l.mergeSort_perm _).length_eq])

/-- C9: the follow-mutation stream and the unfollow-mutation stream each issue
their individual calls in lexicographically sorted order of usernames (each
stream is a sorted rearrangement of its input), and two runs handed the same
set of users — i.e. any two orderings of the same list — issue the mutations
in identical order. -/
theorem mutation_calls_sorted_deterministic (users users' : List String)
    (h : users.Perm users') :
    (process_follows_calls users).Sorted (· ≤ ·) ∧
    (process_follows_calls users).Perm users ∧
    process_follows_calls users = process_follows_calls users' ∧
    (process_unfollows_calls users).Sorted (· ≤ ·) ∧
    (process_unfollows_calls users).Perm users ∧
    process_unfollows_calls users = process_unfollows_calls users' := by
  have hs : ∀ l : List String, (process_follows_calls l).Sorted (· ≤ ·) := by
    intro l
    rw [process_follows_calls_eq_sort]
    exact List.sorted_mergeSort' l
  have hp : ∀ l : List String, (process_follows_calls l).Perm l := by
    intro l
    rw [process_follows_calls_eq_sort]
    exact l.mergeSort_perm _
  have hdet : process_follows_calls users = process_follows_calls users' := by
    rw [process_follows_calls_eq_sort, process_follows_calls_eq_sort]
    exact List.eq_of_perm_of_sorted
      (((users.mergeSort_perm _).trans h).trans (users'.mergeSort_perm _).symm)
      (List.sorted_mergeSort' users) (List.sorted_mergeSort' users')
  have huf : ∀ l : List String, process_unfollows_calls l = process_follows_calls l :=
    fun _ => rfl
  exact ⟨hs users, hp users, hdet,
    huf users ▸ hs users, huf users ▸ hp users,
    (huf users).trans (hdet.trans (huf users').symm)⟩

/-- Witness for C9 at two concrete orderings of the same user set. -/
theorem mutation_calls_sorted_deterministic_witness :
    (["b", "a"] : List String).Perm ["a", "b"] ∧
    ((process_follows_calls ["b", "a"]).Sorted (· ≤ ·) ∧
      (process_follows_calls ["b", "a"]).Perm ["b", "a"] ∧
      process_follows_calls ["b", "a"] = process_follows_calls ["a", "b"] ∧
      (process_unfollows_calls ["b", "a"]).Sorted (· ≤ ·) ∧
      (process_unfollows_calls ["b", "a"]).Perm ["b", "a"] ∧
      process_unfollows_calls ["b", "a"] = process_unfollows_calls ["a", "b"]) :=
  ⟨List.Perm.swap' _ _ (List.Perm.refl _),
    mutation_calls_sorted_deterministic ["b", "a"] ["a", "b"]
      (List.Perm.swap' _ _ (List.Perm.refl _))⟩

/-! ## promotion.py : find_users_to_promote

`PromotionManager.find_users_to_promote` (src/promotion.py lines 33-135)
explores seed followers level by level in sub-batches of 3, and inside a
`try` block calls `self.client.get_followers_batch(batch, pages_map=pages_map)`
(line 100). But `GitHubClient.get_followers_batch` (src/github_client.py
line 331) is declared `(self, usernames, max_pages=1)`: it has no `pages_map`
parameter, so every such call raises `TypeError: got an unexpected keyword
argument`, which the `except Exception` on line 120 swallows. The keyword
acceptance check of the Python call is modelled explicitly; `fetch` is an
oracle for what the batched fetch would return were the call accepted, and
the random shuffle and random page sampling are irrelevant to the outcome
(the sampled `pages_map` is never received by the client). -/

/-- The parameter names `get_followers_batch` accepts besides `self`
(src/github_client.py line 331). -/
def get_followers_batch_params : List String := ["usernames", "max_pages"]

/-- A Python call to `get_followers_batch` with positional `usernames` and the
given extra keyword-argument names: if some keyword is not among the declared
parameters the call raises `TypeError` before the body runs; otherwise it
returns the fetched mapping from each username to its follower list. -/
def call_get_followers_batch (fetch : List String → List (String × List String))
    (usernames : List String) (kwargs : List String) :
    Except String (List (String × List String)) :=
  if kwargs.all (fun k => get_followers_batch_params.contains k) then
    Except.ok (fetch usernames)
  else Except.error "TypeError"

/-- The inner candidate-collection loop over one follower list
(src/promotion.py lines 106-115): a follower neither excluded nor already
collected is appended to `promoted`; reaching `count` breaks immediately
(skipping that follower's `next_level` append); when the next depth level is
still below `max_depth` (`deeper`), every non-breaking follower is appended
to `next_level`. -/
def collectFollowers (excluded : Finset String) (count : Nat) (deeper : Bool) :
    List String → List String → List String → List String × List String
  | [], promoted, nextLevel => (promoted, nextLevel)
  | f :: fs, promoted, nextLevel =>
    if f ∉ excluded ∧ f ∉ promoted then
      if count ≤ (promoted ++ [f]).length then (promoted ++ [f], nextLevel)
      else
        collectFollowers excluded count deeper fs (promoted ++ [f])
          (if deeper then nextLevel ++ [f] else nextLevel)
    else
      collectFollowers excluded count deeper fs promoted
        (if deeper then nextLevel ++ [f] else nextLevel)

/-- The loop over the entries of `followers_dict` (src/promotion.py lines
105-118), breaking out as soon as `count` candidates are collected. -/
def collectBatchDict (excluded : Finset String) (count : Nat) (deeper : Bool) :
    List (String × List String) → List String → List String →
      List String × List String
  | [], promoted, nextLevel => (promoted, nextLevel)
  | entry :: rest, promoted, nextLevel =>
    let p := collectFollowers excluded count deeper entry.2 promoted nextLevel
    if count ≤ p.1.length then p
    else collectBatchDict excluded count deeper rest p.1 p.2

/-- The sub-batch loop of one depth level (src/promotion.py lines 81-127):
filter each batch against `visited` (`continue` when empty), mark the batch
visited, attempt the batched fetch — whose `TypeError` is caught by the
`except`, skipping the batch — and break out once `count` is reached. -/
def processBatches (fetch : List String → List (String × List String))
    (excluded : Finset String) (count : Nat) (deeper : Bool) :
    List (List String) → Finset String → List String → List String →
      Finset String × List String × List String
  | [], visited, promoted, nextLevel => (visited, promoted, nextLevel)
  | batch :: rest, visited, promoted, nextLevel =>
    if (batch.filter (fun u => decide (u ∉ visited))).isEmpty then
      processBatches fetch excluded count deeper rest visited promoted nextLevel
    else
      match call_get_followers_batch fetch
          (batch.filter (fun u => decide (u ∉ visited))) ["pages_map"] with
      | .error _ =>
        if count ≤ promoted.length then
          (visited ∪ (batch.filter (fun u => decide (u ∉ visited))).toFinset,
            promoted, nextLevel)
        else
          processBatches fetch excluded count deeper rest
            (visited ∪ (batch.filter (fun u => decide (u ∉ visited))).toFinset)
            promoted nextLevel
      | .ok d =>
        if count ≤ (collectBatchDict excluded count deeper d promoted nextLevel).1.length then
          (visited ∪ (batch.filter (fun u => decide (u ∉ visited))).toFinset,
            collectBatchDict excluded count deeper d promoted nextLevel)
        else
          processBatches fetch excluded count deeper rest
            (visited ∪ (batch.filter (fun u => decide (u ∉ visited))).toFinset)
            (collectBatchDict excluded count deeper d promoted nextLevel).1
            (collectBatchDict excluded count deeper d promoted nextLevel).2

/-- The `while queue and len(promoted) < count and current_depth < max_depth`
loop (src/promotion.py lines 74-131), with `fuel = max_depth - current_depth`;
the next queue is the next level capped to 50 entries. -/
def promoLoop (fetch : List String → List (String × List String))
    (excluded : Finset String) (count : Nat) :
    Nat → List String → Finset String → List String → List String
  | 0, _, _, promoted => promoted
  | fuel + 1, queue, visited, promoted =>
    if queue.isEmpty ∨ count ≤ promoted.length then promoted
    else
      promoLoop fetch excluded count fuel
        ((processBatches fetch excluded count (decide (1 ≤ fuel))
          (pychunks 3 queue) visited promoted []).2.2.take 50)
        (processBatches fetch excluded count (decide (1 ≤ fuel))
          (pychunks 3 queue) visited promoted []).1
        (processBatches fetch excluded count (decide (1 ≤ fuel))
          (pychunks 3 queue) visited promoted []).2.1

/-- Embedding of `find_users_to_promote` (src/promotion.py lines 33-135).
`shuffled_followers` is `list(current_followers)` after `random.shuffle`;
the exclusion set is `ban_list | current_followers | {self.config.username}`;
the seeds are the first `min(seeds_count, len)` shuffled followers; the
result is truncated to `count`. -/
def find_users_to_promote (fetch : List String → List (String × List String))
    (shuffled_followers : List String) (username : String)
    (ban_list current_followers : Finset String)
    (seeds_count count max_depth : Nat) : List String :=
  let excluded := (ban_list ∪ current_followers) ∪ {username}
  if shuffled_followers.isEmpty then []
  else
    (promoLoop fetch excluded count max_depth
      (shuffled_followers.take (min seeds_count shuffled_followers.length))
      ∅ []).take count

/-- Every sub-batch leaves the candidate list and the next level unchanged,
because the batched-fetch call always raises `TypeError`. -/
lemma processBatches_promoted_unchanged
    (fetch : List String → List (String × List String))
    (excluded : Finset String) (count : Nat) (deeper : Bool) :
    ∀ (batches : List (List String)) (visited : Finset String)
      (promoted nextLevel : List String),
    (processBatches fetch excluded count deeper batches visited promoted
        nextLevel).2 = (promoted, nextLevel) := by
  intro batches
  induction batches with
  | nil => intro visited promoted nextLevel; rfl
  | cons batch rest ih =>
    intro visited promoted nextLevel
    rw [processBatches]
    by_cases hb : (batch.filter (fun u => decide (u ∉ visited))).isEmpty
    · rw [if_pos hb]
      exact ih _ _ _
    · rw [if_neg hb]
      have hcall : call_get_followers_batch fetch
          (batch.filter (fun u => decide (u ∉ visited))) ["pages_map"] =
            Except.error "TypeError" := rfl
      rw [hcall]
      by_cases hc : count ≤ promoted.length
      · simp only [if_pos hc]
      · simp only [if_neg hc]
        exact ih _ _ _

/-- The level loop started with no candidates never collects any. -/
lemma promoLoop_empty (fetch : List String → List (String × List String))
    (excluded : Finset String) (count : Nat) :
    ∀ (fuel : Nat) (queue : List String) (visited : Finset String),
    promoLoop fetch excluded count fuel queue visited [] = [] := by
  intro fuel
  induction fuel with
  | zero => intro queue visited; rfl
  | succ f ih =>
    intro queue visited
    rw [promoLoop]
    by_cases h : queue.isEmpty ∨ count ≤ ([] : List String).length
    · rw [if_pos h]
    · rw [if_neg h]
      have hp := processBatches_promoted_unchanged fetch excluded count
        (decide (1 ≤ f)) (pychunks 3 queue) visited [] []
      rw [show (processBatches fetch excluded count (decide (1 ≤ f))
          (pychunks 3 queue) visited [] []).2.1 = [] from by rw [hp],
        show (processBatches fetch excluded count (decide (1 ≤ f))
          (pychunks 3 queue) visited [] []).2.2 = [] from by rw [hp]]
      exact ih _ _

/-- C2 fails on the code: the discovery engine's batched fetch call passes the
keyword argument `pages_map`, which `get_followers_batch` does not declare, so
the call raises `TypeError` (first conjunct); the `except` swallows it for
every sub-batch, hence no seed's followers are ever fetched and
`find_users_to_promote` returns the empty candidate list for every input,
oracle, shuffle order and page sampling (second conjunct) — contradicting the
claim that a successful seed fetch contributes its followers as candidates. -/
theorem discovery_never_yields_candidates
    (fetch : List String → List (String × List String))
    (batch : List String) (shuffled_followers : List String) (username : String)
    (ban_list current_followers : Finset String)
    (seeds_count count max_depth : Nat) :
    call_get_followers_batch fetch batch ["pages_map"] = Except.error "TypeError" ∧
    find_users_to_promote fetch shuffled_followers username ban_list
      current_followers seeds_count count max_depth = [] := by
  refine ⟨rfl, ?_⟩
  rw [find_users_to_promote]
  by_cases h : shuffled_followers.isEmpty
  · rw [if_pos h]
  · rw [if_neg h, promoLoop_empty]
    simp

end SubManager
